import Mathlib

/-!
Verification development for the training script of the laacri/thesis
repository (training_geobench_brick.py).

The script is embedded shallowly:

* A raster band (one h5py dataset) is a 2D array of pixels, modelled as a
  list of rows of rationals (`Band2D`).  All machine floating-point
  arithmetic is modelled exactly over `ℚ`; claims about floating-point
  rounding itself are handled at the level of the operation concerned.
* The `except Exception` branch of `compute_band_stats` has two reachable
  failure modes: the file fails to open outright (nothing is accumulated),
  or the file opens and a dataset read `f[b][:]` raises mid-loop, in which
  case the bands read before the failure have already been accumulated and
  stay.  `FileSys`/`computeBandStatsFiles` model runs whose files either
  fail to open (`none`) or read completely; `computeBandStatsDisk` (with
  `readBands` and `stepDiskFile`) refines this with per-dataset read
  failure and captures the partial-accumulation path.
* `np.sqrt` appears only in `compute_band_stats` (line 72).  Since the
  square root of a rational is irrational in general, the std of a band is
  represented by its *square*: `npSqrtSq v` is `some v` when `v ≥ 0`
  (the std is the nonnegative number whose square is `v`) and `none` when
  `v < 0`, modelling the NaN that `np.sqrt` returns on a negative input.
  In particular the std is zero iff `npSqrtSq v = some 0`.
-/

/-- A single raster band: a 2D array of pixel values (rows of pixels). -/
abbrev Band2D := List (List ℚ)

/-- `band.sum()` over a 2D band (source line 65). -/
def bandSum (b : Band2D) : ℚ := (b.map List.sum).sum

/-- `np.square(band).sum()` over a 2D band (source line 66). -/
def bandSqSum (b : Band2D) : ℚ := (b.map (fun row => (row.map (fun x => x * x)).sum)).sum

/-- `band.size`: the total number of pixels of a 2D band (source line 67). -/
def bandSize (b : Band2D) : ℕ := (b.map List.length).sum

/-- The per-band accumulators of `compute_band_stats` (source lines 57-59):
`band_sum[i]`, `band_sq_sum[i]`, `band_pixel_counts[i]`. -/
structure BandAcc where
  sum : ℚ
  sqSum : ℚ
  count : ℕ
deriving DecidableEq

/-- One iteration of the file loop of `compute_band_stats` (source lines
60-69), for a file that either fails to open (`none` — the accumulators are
untouched; the `except` branch only prints) or whose datasets all read
(`some bs`).  A file that opens but fails mid-read is modelled by
`stepDiskFile`, which reduces to this function on the bands read before the
failure.  For a fully readable file, `for i, b in enumerate(f.keys())`
accumulates band `i`; an index `i ≥ n` would raise an `IndexError` on
`band_sum[i]`, caught by the same `except` after the first `n` bands have
already been accumulated, hence the `min bs.length n` bound. -/
def stepFile (n : ℕ) (acc : ℕ → BandAcc) (file : Option (List Band2D)) : ℕ → BandAcc :=
  match file with
  | none => acc
  | some bs => fun i =>
      if i < min bs.length n then
        { sum := (acc i).sum + bandSum (bs.getD i [])
          sqSum := (acc i).sqSum + bandSqSum (bs.getD i [])
          count := (acc i).count + bandSize (bs.getD i []) }
      else acc i

/-- The square-root step of source line 72, represented on squares:
`np.sqrt v` is NaN (`none`) for `v < 0` and otherwise the nonnegative root,
whose square is `v`. -/
def npSqrtSq (v : ℚ) : Option ℚ := if v < 0 then none else some v

/-- The variant of the square-root step demanded by the spec, which clamps a
negative intermediate variance to zero before the square root: the result is
always `some (max 0 v)` (squared), never NaN. -/
def npSqrtSqClamped (v : ℚ) : Option ℚ := some (max 0 v)

/-- One row of the `band_stats` DataFrame returned by `compute_band_stats`
(source lines 73-78): band name, mean, std (represented squared, see
`npSqrtSq`), and total pixel count. -/
structure BandRow where
  band : String
  mean : ℚ
  stdSq : Option ℚ
  pixels : ℕ
deriving DecidableEq

/-- Row `i` of the result of `compute_band_stats` (source lines 70-78):
`band_means = band_sum / band_pixel_counts` and
`band_stds = sqrt(band_sq_sum / band_pixel_counts - band_means^2)`. -/
def statsRow (bands : List String) (acc : ℕ → BandAcc) (i : ℕ) : BandRow :=
  { band := bands.getD i ""
    mean := (acc i).sum / ((acc i).count : ℚ)
    stdSq := npSqrtSq ((acc i).sqSum / ((acc i).count : ℚ)
      - ((acc i).sum / ((acc i).count : ℚ)) ^ 2)
    pixels := (acc i).count }

/-- `compute_band_stats` (source lines 49-80), acting on the already-read
file contents: fold the per-file accumulation over the file list, then build
one row per entry of the fixed band-name list. -/
def computeBandStatsFiles (bands : List String) (files : List (Option (List Band2D))) :
    List BandRow :=
  (List.range bands.length).map
    (statsRow bands (files.foldl (stepFile bands.length) (fun _ => ⟨0, 0, 0⟩)))

/-- One row of the split dataframes built in `main` (source lines 360-409):
`image_id`, `filename`, `bands`, `split`, `label`.  An absent label
(`image_to_label_map.get(img_id, None)` returning `None`) is `none`. -/
structure ExampleRecord where
  image_id : String
  filename : String
  bands : ℕ
  split : String
  label : Option String
deriving DecidableEq, Inhabited

/-- The file system, for runs whose files either read completely or fail
to open outright (`none`).  A file that opens but whose datasets fail to
read mid-loop is modelled by the refined `readBands`, `stepDiskFile` and
`computeBandStatsDisk`. -/
def FileSys : Type := String → Option (List Band2D)

/-- `compute_band_stats(df, bands)` (source lines 49-80): reads
`df['filename']` through the file system and accumulates band statistics. -/
def compute_band_stats (fs : FileSys) (df : List ExampleRecord) (bands : List String) :
    List BandRow :=
  computeBandStatsFiles bands (df.map (fun r => fs r.filename))

/-- The fixed class-name list `brickkiln_labels` (source line 44). -/
def brickkiln_labels : List String := ["not brick kiln", "brick kiln"]

/-- `n_bands = 13` (source line 45). -/
def n_bands : ℕ := 13

/-- One dict insertion `image_to_label_map[img_id] = lbl` (Python dict
semantics: a later insertion for the same key overwrites the earlier one). -/
def insertId (m : String → Option String) (img_id lbl : String) : String → Option String :=
  fun k => if k = img_id then some lbl else m k

/-- The body of the inner loop of the label-map inversion (source lines
353-357): insert `brickkiln_labels[0]` for key `'0'`, `brickkiln_labels[1]`
for key `'1'`, and do nothing for any other key. -/
def addLabelEntry (lbl : String) (m : String → Option String) (img_id : String) :
    String → Option String :=
  if lbl = "0" then insertId m img_id (brickkiln_labels.getD 0 "")
  else if lbl = "1" then insertId m img_id (brickkiln_labels.getD 1 "")
  else m

/-- The label-map inversion of `main` (source lines 351-357): iterate the
entries of `label_map` in order (Python dicts iterate in insertion order, the
document order of the JSON file), and for each entry insert every image id of
its list. -/
def image_to_label_map (label_map : List (String × List String)) : String → Option String :=
  label_map.foldl (fun m e => e.2.foldl (addLabelEntry e.1) m) (fun _ => none)

/-- The per-split dataframe construction of `main` (source lines 360-409,
one identical loop per split): one record per image id of the split's list,
with `label = image_to_label_map.get(img_id, None)`. -/
def buildSplitData (images_path : String) (img_to_label : String → Option String)
    (split : String) (ids : List String) : List ExampleRecord :=
  ids.map (fun img_id =>
    { image_id := img_id
      filename := images_path ++ img_id ++ ".hdf5"
      bands := n_bands
      split := split
      label := img_to_label img_id })

/-- The fixed ordered band-name list of `main` (source lines 413-425). -/
def bandNames : List String :=
  ["01 - Coastal aerosol",
   "02 - Blue",
   "03 - Green",
   "04 - Red",
   "05 - Vegetation Red Edge",
   "06 - Vegetation Red Edge",
   "07 - Vegetation Red Edge",
   "08 - NIR",
   "08A - Vegetation Red Edge",
   "09 - Water vapour",
   "10 - SWIR - Cirrus",
   "11 - SWIR",
   "12 - SWIR"]

/-- One value of `stats_dict` (source lines 428-431): the mean and std of
one band (std represented squared, see `npSqrtSq`). -/
structure StatsEntry where
  mean : ℚ
  stdSq : Option ℚ
deriving DecidableEq

/-- `stats_dict` (source lines 428-431): band name mapped to its mean/std
row of the `band_stats` DataFrame. -/
def stats_dict_of (rows : List BandRow) : List (String × StatsEntry) :=
  rows.map (fun r => (r.band, ⟨r.mean, r.stdSq⟩))

/-- `label2idx` (source line 439). -/
def label2idxMain : List (String × ℕ) := [("not brick kiln", 0), ("brick kiln", 1)]

/-- `GEOBenchMSIDataset.__init__` state (source lines 84-88). -/
structure GEOBenchMSIDataset where
  df : List ExampleRecord
  label2idx : List (String × ℕ)
  band_stats : List (String × StatsEntry)
deriving DecidableEq

/-- `GEOBenchMSIDataModule.__init__` state (source lines 111-119). -/
structure GEOBenchMSIDataModule where
  train_df : List ExampleRecord
  val_df : List ExampleRecord
  test_df : List ExampleRecord
  label2idx : List (String × ℕ)
  band_stats : List (String × StatsEntry)
  batch_size : ℕ

/-- The three datasets built by `GEOBenchMSIDataModule.setup`. -/
structure DataModuleDatasets where
  train_dataset : GEOBenchMSIDataset
  val_dataset : GEOBenchMSIDataset
  test_dataset : GEOBenchMSIDataset

/-- `GEOBenchMSIDataModule.setup` (source lines 121-124): each of the three
datasets is handed the module's one `band_stats` table. -/
def GEOBenchMSIDataModule.setup (m : GEOBenchMSIDataModule) : DataModuleDatasets :=
  { train_dataset := ⟨m.train_df, m.label2idx, m.band_stats⟩
    val_dataset := ⟨m.val_df, m.label2idx, m.band_stats⟩
    test_dataset := ⟨m.test_df, m.label2idx, m.band_stats⟩ }

/-- The data-preparation part of `main` (source lines 427-443): compute the
band statistics from the training dataframe only, turn them into
`stats_dict`, and build the data module (batch size 32, source line 40),
whose `setup` constructs the three datasets. -/
def mainDataSetup (fs : FileSys) (train_df val_df test_df : List ExampleRecord) :
    DataModuleDatasets :=
  (GEOBenchMSIDataModule.mk train_df val_df test_df label2idxMain
    (stats_dict_of (compute_band_stats fs train_df bandNames)) 32).setup

/-- Outcome of the label-to-index conversion on source line 95.  `keyError`
is the opaque `KeyError` a failed Python dict lookup raises; `configError`
is a dedicated configuration error (what the spec demands for an absent
label). -/
inductive LabelLookupResult
  | ok (i : ℕ)
  | keyError
  | configError
deriving DecidableEq

/-- The label-to-index conversion of `GEOBenchMSIDataset.__getitem__`
(source lines 93-95): `label = self.label2idx[self.df.loc[idx, "label"]]`.
A record whose label is absent (`None`) makes the dict lookup fail with a
plain `KeyError`, as does a label string missing from `label2idx`. -/
def GEOBenchMSIDataset.getitemLabel (ds : GEOBenchMSIDataset) (idx : ℕ) : LabelLookupResult :=
  match (ds.df.getD idx default).label with
  | none => .keyError
  | some l =>
    match ds.label2idx.lookup l with
    | some i => .ok i
    | none => .keyError

/-- Modelled from the spec: the same lookup, but raising a dedicated
configuration error when the record's label is absent ("a dataset that
converts labels to indices must fail fast (raise a configuration error) if
it encounters an absent label at lookup time").  Written only to be compared
with `GEOBenchMSIDataset.getitemLabel`, the embedding of the source. -/
def GEOBenchMSIDataset.getitemLabelSpec (ds : GEOBenchMSIDataset) (idx : ℕ) : LabelLookupResult :=
  match (ds.df.getD idx default).label with
  | none => .configError
  | some l =>
    match ds.label2idx.lookup l with
    | some i => .ok i
    | none => .keyError

/-- The per-band normalization of `GEOBenchMSIDataset.__getitem__` (source
line 102): `band = (band - stats["mean"]) / stats["std"]`, elementwise over
the 2D band. -/
def normalizeBand (b : Band2D) (mean std : ℚ) : Band2D :=
  b.map (fun row => row.map (fun x => (x - mean) / std))

/-- A 4-D tensor `[batch, channels, height, width]` of rationals: explicit
shape plus a total indexing function (indices outside the shape are
irrelevant to every claim). -/
structure Tensor4 where
  batch : ℕ
  channels : ℕ
  height : ℕ
  width : ℕ
  data : ℕ → ℕ → ℕ → ℕ → ℚ

/-- `nn.Conv2d(cin, cout, kernel_size=1)` with the default `stride=1,
padding=0`: a per-pixel linear map across channels.  Output spatial size
equals input spatial size, output channel count is `cout`. -/
structure Conv1x1 where
  cin : ℕ
  cout : ℕ
  weight : ℕ → ℕ → ℚ
  bias : ℕ → ℚ

/-- Forward pass of a 1x1 convolution:
`out[b, co, h, w] = bias[co] + Σ_ci weight[co, ci] * x[b, ci, h, w]`. -/
def Conv1x1.forward (c : Conv1x1) (x : Tensor4) : Tensor4 :=
  { batch := x.batch
    channels := c.cout
    height := x.height
    width := x.width
    data := fun b co h w =>
      c.bias co + ∑ ci in Finset.range c.cin, c.weight co ci * x.data b ci h w }

/-- `nn.ReLU()` applied elementwise: shape unchanged. -/
def reluT (x : Tensor4) : Tensor4 :=
  { x with data := fun b c h w => max (x.data b c h w) 0 }

/-- `MSIEmbedder1` (source lines 136-144): parameters of the single
`Conv2d(in_channels, 3, kernel_size=1)` layer `proj`. -/
structure MSIEmbedder1 where
  in_channels : ℕ
  weight : ℕ → ℕ → ℚ
  bias : ℕ → ℚ

/-- `MSIEmbedder1.forward` (source lines 143-144): `self.proj(x)`. -/
def MSIEmbedder1.forward (e : MSIEmbedder1) (x : Tensor4) : Tensor4 :=
  (Conv1x1.mk e.in_channels 3 e.weight e.bias).forward x

/-- `MSIEmbedder2` (source lines 147-155): parameters of the two layers of
`proj2 = Sequential(Conv2d(in_channels, 64, 1), ReLU(), Conv2d(64, 3, 1),
ReLU())`. -/
structure MSIEmbedder2 where
  in_channels : ℕ
  weight1 : ℕ → ℕ → ℚ
  bias1 : ℕ → ℚ
  weight2 : ℕ → ℕ → ℚ
  bias2 : ℕ → ℚ

/-- `MSIEmbedder2.forward` (source lines 157-158): `self.proj2(x)`, i.e.
conv 13→64, ReLU, conv 64→3, ReLU. -/
def MSIEmbedder2.forward (e : MSIEmbedder2) (x : Tensor4) : Tensor4 :=
  reluT ((Conv1x1.mk 64 3 e.weight2 e.bias2).forward
    (reluT ((Conv1x1.mk e.in_channels 64 e.weight1 e.bias1).forward x)))

/-- `train_df['label'].value_counts()[l]` for one label string `l`: the
number of records of the dataframe carrying that label (`value_counts`
ignores absent labels). -/
def countLabel (df : List ExampleRecord) (l : String) : ℕ :=
  (df.filter (fun r => r.label == some l)).length

/-- The raw inverse-frequency weights of `main` (source lines 445-447) for
the two classes, from their training counts: `total / count[c]` with
`total = sum(class_counts)`.  Component 0 is class 0 (not brick kiln),
component 1 is class 1 (brick kiln). -/
def class_weights_raw (c0 c1 : ℕ) : ℚ × ℚ :=
  (((c0 : ℚ) + (c1 : ℚ)) / (c0 : ℚ), ((c0 : ℚ) + (c1 : ℚ)) / (c1 : ℚ))

/-- The normalized class weights of `main` (source lines 448-449):
each raw weight divided by `norm_factor = sum(class_weights.values())`. -/
def class_weights_normalized (c0 c1 : ℕ) : ℚ × ℚ :=
  ((class_weights_raw c0 c1).1 / ((class_weights_raw c0 c1).1 + (class_weights_raw c0 c1).2),
   (class_weights_raw c0 c1).2 / ((class_weights_raw c0 c1).1 + (class_weights_raw c0 c1).2))

/-- `weights_tensor` (source lines 445-453): the normalized weights computed
from the training dataframe's per-class counts, ordered by class index. -/
def weights_tensor (df : List ExampleRecord) : ℚ × ℚ :=
  class_weights_normalized (countLabel df "not brick kiln") (countLabel df "brick kiln")

/-- A band all of whose pixels hold the constant `c`. -/
abbrev constBand (b : Band2D) (c : ℚ) : Prop := ∀ row ∈ b, ∀ x ∈ row, x = c

/-- A demo file system: one readable 13-band file, every other name fails
to open. -/
def fsDemo : FileSys :=
  fun s => if s = "good.hdf5" then some (List.replicate 13 [[2]]) else none

/-- A record whose file is readable under `fsDemo`. -/
def recGood : ExampleRecord := ⟨"good", "good.hdf5", 13, "train", some "brick kiln"⟩

/-- A record whose file fails to open under `fsDemo`. -/
def recBad1 : ExampleRecord := ⟨"bad1", "bad1.hdf5", 13, "train", some "brick kiln"⟩

/-- A second record whose file fails to open under `fsDemo`. -/
def recBad2 : ExampleRecord := ⟨"bad2", "bad2.hdf5", 13, "train", some "not brick kiln"⟩

/-- A dataset whose only record has an absent label. -/
def dsAbsent : GEOBenchMSIDataset :=
  ⟨[⟨"img0", "img0.hdf5", 13, "train", none⟩], label2idxMain, []⟩

/-- A demo inverted label map knowing only the id `imgA`. -/
def wLabelOf : String → Option String :=
  fun id => if id = "imgA" then some "brick kiln" else none

/-- Demo parameters for `MSIEmbedder1` with `in_channels = 13`. -/
def wEmbedder1 : MSIEmbedder1 := ⟨13, fun _ _ => 1, fun _ => 0⟩

/-- Demo parameters for `MSIEmbedder2` with `in_channels = 13`. -/
def wEmbedder2 : MSIEmbedder2 := ⟨13, fun _ _ => 1, fun _ => 0, fun _ _ => 1, fun _ => 0⟩

/-- A demo input tensor of shape `[2, 13, 64, 64]`. -/
def wInput : Tensor4 := ⟨2, 13, 64, 64, fun _ _ _ _ => 0⟩

/-- Demo per-band constants for a constant-valued 13-band file. -/
def demoConsts : List ℚ := [3, 1, 4, 1, 5, 9, 2, 6, 5, 3, 5, 8, 9]

/-- One file whose 13 bands each hold a single constant value (band `i`
holds `demoConsts[i]` in every pixel). -/
def demoFiles : List (Option (List Band2D)) :=
  [some (demoConsts.map (fun c => [[c, c], [c]]))]

/-- Claim C4: the band-statistics table is computed exclusively from the
training split (the same table results whatever the validation and test
dataframes are), and the identical table — not a recomputed one — is the
`band_stats` of the train, validation and test datasets built by `setup`. -/
theorem band_stats_train_only (fs : FileSys)
    (train_df val_df test_df val_df2 test_df2 : List ExampleRecord) :
    (mainDataSetup fs train_df val_df test_df).train_dataset.band_stats
        = stats_dict_of (compute_band_stats fs train_df bandNames)
      ∧ (mainDataSetup fs train_df val_df test_df).val_dataset.band_stats
        = (mainDataSetup fs train_df val_df test_df).train_dataset.band_stats
      ∧ (mainDataSetup fs train_df val_df test_df).test_dataset.band_stats
        = (mainDataSetup fs train_df val_df test_df).train_dataset.band_stats
      ∧ (mainDataSetup fs train_df val_df2 test_df2).train_dataset.band_stats
        = (mainDataSetup fs train_df val_df test_df).train_dataset.band_stats :=
  ⟨rfl, rfl, rfl, rfl⟩

/-- Claim C6: both channel-adapter variants map an input of shape
`[B, 13, H, W]` to an output of shape `[B, 3, H, W]`, leaving batch and
spatial dimensions unchanged. -/
theorem embedders_preserve_spatial_shape (e1 : MSIEmbedder1) (e2 : MSIEmbedder2)
    (x : Tensor4) (h1 : e1.in_channels = 13) (h2 : e2.in_channels = 13)
    (hx : x.channels = 13) :
    ((e1.forward x).batch = x.batch ∧ (e1.forward x).channels = 3
      ∧ (e1.forward x).height = x.height ∧ (e1.forward x).width = x.width)
    ∧ ((e2.forward x).batch = x.batch ∧ (e2.forward x).channels = 3
      ∧ (e2.forward x).height = x.height ∧ (e2.forward x).width = x.width) :=
  ⟨⟨rfl, rfl, rfl, rfl⟩, ⟨rfl, rfl, rfl, rfl⟩⟩

/-- Witness for C6 at the concrete embedders `wEmbedder1`, `wEmbedder2` and
the concrete input `wInput` of shape `[2, 13, 64, 64]`. -/
theorem embedders_preserve_spatial_shape_witness :
    ((wEmbedder1.forward wInput).batch = wInput.batch
      ∧ (wEmbedder1.forward wInput).channels = 3
      ∧ (wEmbedder1.forward wInput).height = wInput.height
      ∧ (wEmbedder1.forward wInput).width = wInput.width)
    ∧ ((wEmbedder2.forward wInput).batch = wInput.batch
      ∧ (wEmbedder2.forward wInput).channels = 3
      ∧ (wEmbedder2.forward wInput).height = wInput.height
      ∧ (wEmbedder2.forward wInput).width = wInput.width) :=
  embedders_preserve_spatial_shape wEmbedder1 wEmbedder2 wInput rfl rfl rfl

/-- Claim C9: every element of the nonlinear adapter's (Variant 2) output is
nonnegative, because a ReLU follows the final 64-to-3 projection. -/
theorem embedder2_output_nonneg (e : MSIEmbedder2) (x : Tensor4) (b c h w : ℕ) :
    0 ≤ (e.forward x).data b c h w :=
  le_max_right _ 0

/-- Claim C3 (amended): at an index whose record has an absent label, the
label-to-index lookup of `__getitem__` fails at lookup time with an opaque
`KeyError` (the dict lookup of `None`), not a dedicated configuration
error. -/
theorem getitem_absent_label_raises_key_error (ds : GEOBenchMSIDataset) (idx : ℕ)
    (h : (ds.df.getD idx default).label = none) :
    ds.getitemLabel idx = .keyError := by
  unfold GEOBenchMSIDataset.getitemLabel
  rw [h]

/-- Witness for the amended C3 at the concrete dataset `dsAbsent`. -/
theorem getitem_absent_label_raises_key_error_witness :
    dsAbsent.getitemLabel 0 = .keyError :=
  getitem_absent_label_raises_key_error dsAbsent 0 rfl

/-- Counterexample to C3 as stated: on the concrete dataset `dsAbsent`,
whose record 0 has an absent label, the code's lookup yields the opaque
`KeyError`, which differs from the configuration error the claim says is
raised (`getitemLabelSpec`, modelled from the spec). -/
theorem getitem_absent_label_counterexample :
    dsAbsent.getitemLabel 0 = .keyError
    ∧ dsAbsent.getitemLabelSpec 0 = .configError
    ∧ dsAbsent.getitemLabel 0 ≠ dsAbsent.getitemLabelSpec 0 := by
  refine ⟨rfl, rfl, ?_⟩
  decide

/-- Dropping a file that fails to open from anywhere in the file list
leaves the accumulator fold, and hence the whole result of the statistics
computation, unchanged: the `except` branch only prints. -/
theorem computeBandStatsFiles_skip_none (bands : List String)
    (pre post : List (Option (List Band2D))) :
    computeBandStatsFiles bands (pre ++ none :: post)
      = computeBandStatsFiles bands (pre ++ post) := by
  unfold computeBandStatsFiles
  rw [List.foldl_append, List.foldl_append, List.foldl_cons]
  rfl

/-- The bands the loop of source lines 63-67 actually accumulates from an
opened file whose datasets may individually fail to read (`f[b][:]`
raising): the datasets read successfully before the first failing one.  The
exception aborts the loop, so later datasets are never read, but the sums
of the earlier bands stay in the accumulators. -/
def readBands : List (Option Band2D) → List Band2D
  | [] => []
  | none :: _ => []
  | some b :: t => b :: readBands t

/-- One iteration of the file loop of `compute_band_stats` (source lines
60-69) on an on-disk file whose datasets may individually fail to read: a
file that fails to open (`none`) leaves the accumulators unchanged, and a
file that opens accumulates exactly the datasets read before the first
failure — i.e. it acts like a fully readable file holding `readBands ds`.
The `except` branch only prints in either case. -/
def stepDiskFile (n : ℕ) (acc : ℕ → BandAcc) (file : Option (List (Option Band2D))) :
    ℕ → BandAcc :=
  match file with
  | none => acc
  | some ds => stepFile n acc (some (readBands ds))

/-- `compute_band_stats` (source lines 49-80) on on-disk files with
per-dataset read failure: the refined embedding of the error path, of which
`computeBandStatsFiles` is the restriction to files that either fail to
open outright or read completely. -/
def computeBandStatsDisk (bands : List String)
    (files : List (Option (List (Option Band2D)))) : List BandRow :=
  (List.range bands.length).map
    (statsRow bands (files.foldl (stepDiskFile bands.length) (fun _ => ⟨0, 0, 0⟩)))

/-- A file all of whose datasets read is read in full. -/
theorem readBands_map_some : ∀ xs : List Band2D, readBands (xs.map some) = xs := by
  intro xs
  induction xs with
  | nil => rfl
  | cons b t ih =>
    rw [List.map_cons]
    show b :: readBands (t.map some) = b :: t
    rw [ih]

/-- The refined disk computation factors through the band-list computation:
every opened file contributes exactly its fully-read bands. -/
theorem computeBandStatsDisk_eq_readBands (bands : List String)
    (files : List (Option (List (Option Band2D)))) :
    computeBandStatsDisk bands files
      = computeBandStatsFiles bands (files.map (Option.map readBands)) := by
  have hstep : stepDiskFile bands.length
      = fun a f => stepFile bands.length a (Option.map readBands f) := by
    funext a f
    cases f <;> rfl
  unfold computeBandStatsDisk computeBandStatsFiles
  rw [List.foldl_map, hstep]

/-- Claim C2 (amended): a file that fails to open contributes nothing, and
a file that opens but fails to read mid-loop does not abort the computation
either, but is not cleanly skipped: it contributes exactly the bands read
before the failure (it acts like a fully readable file holding
`readBands ds`), and concretely a file whose first band reads and whose
second raises leaves band 0's pixel in the accumulated counts.  (The number
of skipped files is not recorded in the returned table: see the
counterexample.) -/
theorem computeBandStatsDisk_failed_files (bands : List String)
    (pre post : List (Option (List (Option Band2D)))) (ds : List (Option Band2D)) :
    computeBandStatsDisk bands (pre ++ none :: post)
        = computeBandStatsDisk bands (pre ++ post)
    ∧ computeBandStatsDisk bands (pre ++ some ds :: post)
        = computeBandStatsDisk bands (pre ++ some ((readBands ds).map some) :: post)
    ∧ ((computeBandStatsDisk bandNames [some [some [[5]], none]]).getD 0
        ⟨"", 0, none, 0⟩).pixels = 1
    ∧ ((computeBandStatsDisk bandNames [some [some [[5]], none]]).getD 1
        ⟨"", 0, none, 0⟩).pixels = 0 := by
  refine ⟨?_, ?_, by decide, by decide⟩
  · rw [computeBandStatsDisk_eq_readBands, computeBandStatsDisk_eq_readBands,
      List.map_append, List.map_append, List.map_cons, Option.map_none']
    exact computeBandStatsFiles_skip_none bands _ _
  · unfold computeBandStatsDisk
    rw [List.foldl_append, List.foldl_append, List.foldl_cons, List.foldl_cons]
    have hsame : stepDiskFile bands.length
        (pre.foldl (stepDiskFile bands.length) (fun _ => ⟨0, 0, 0⟩))
        (some ((readBands ds).map some))
        = stepDiskFile bands.length
        (pre.foldl (stepDiskFile bands.length) (fun _ => ⟨0, 0, 0⟩)) (some ds) := by
      simp only [stepDiskFile]
      rw [readBands_map_some]
    rw [hsame]

/-- Counterexample to C2 as stated: two concrete runs that differ only in
the number of failing files — one versus two — return identical results, so
the number of skipped files is not observable in the returned result (it is
only printed). -/
theorem compute_band_stats_skipped_count_unobservable :
    compute_band_stats fsDemo [recGood, recBad1] bandNames
      = compute_band_stats fsDemo [recGood, recBad1, recBad2] bandNames := rfl

/-- Claim C8: for nonzero `std`, the per-band normalization
`(x - mean) / std` of `__getitem__` followed by the de-normalization
`x * std + mean` recovers the original band exactly. -/
theorem normalize_denormalize_roundtrip (b : Band2D) (mean std : ℚ) (h : std ≠ 0) :
    (normalizeBand b mean std).map (fun row => row.map (fun y => y * std + mean)) = b := by
  unfold normalizeBand
  rw [List.map_map]
  have hrow : ((fun row : List ℚ => row.map (fun y => y * std + mean)) ∘
      (fun row : List ℚ => row.map (fun x => (x - mean) / std))) = id := by
    funext row
    simp only [Function.comp_apply, List.map_map, id_eq]
    have hpt : ((fun y => y * std + mean) ∘ (fun x : ℚ => (x - mean) / std)) = id := by
      funext x
      simp only [Function.comp_apply, id_eq]
      rw [div_mul_cancel₀ _ h, sub_add_cancel]
    rw [hpt, List.map_id]
  rw [hrow, List.map_id]

/-- Witness for C8 at a concrete band, `mean = 1`, `std = 2`. -/
theorem normalize_denormalize_roundtrip_witness :
    (normalizeBand [[3, 4], [5]] 1 2).map (fun row => row.map (fun y => y * 2 + 1))
      = [[3, 4], [5]] :=
  normalize_denormalize_roundtrip [[3, 4], [5]] 1 2 (by norm_num)

/-- Folding dict insertions of a single value `v` over a list of ids: a key
ends up mapped to `v` exactly when it is in the list, and is untouched
otherwise. -/
theorem foldl_insertId_eq (v : String) (ids : List String) :
    ∀ (m : String → Option String) (k : String),
      (ids.foldl (fun m' i => insertId m' i v) m) k
        = if k ∈ ids then some v else m k := by
  induction ids with
  | nil => intro m k; simp
  | cons i rest ih =>
    intro m k
    rw [List.foldl_cons, ih]
    by_cases hmem : k ∈ rest
    · simp [List.mem_cons, hmem]
    · by_cases heq : k = i
      · simp [insertId, List.mem_cons, heq, hmem]
      · simp [insertId, List.mem_cons, heq, hmem]

/-- Claim C10: an image id listed under both label-map classes ends up, in
the inverted map, with the label of whichever class key is iterated last —
later insertions overwrite earlier ones — and the inversion is a total
function (no error or warning is raised). -/
theorem image_to_label_map_last_wins (ids0 ids1 : List String) (id : String)
    (h0 : id ∈ ids0) (h1 : id ∈ ids1) :
    image_to_label_map [("0", ids0), ("1", ids1)] id = some "brick kiln"
    ∧ image_to_label_map [("1", ids1), ("0", ids0)] id = some "not brick kiln" := by
  have e0 : addLabelEntry "0" = fun m i => insertId m i "not brick kiln" := by
    funext m i
    rfl
  have e1 : addLabelEntry "1" = fun m i => insertId m i "brick kiln" := by
    funext m i
    rfl
  unfold image_to_label_map
  constructor
  · simp only [List.foldl_cons, List.foldl_nil]
    rw [e1, foldl_insertId_eq, if_pos h1]
  · simp only [List.foldl_cons, List.foldl_nil]
    rw [e0, foldl_insertId_eq, if_pos h0]

/-- Witness for C10: the id `dup` appears under both classes; with key `'0'`
iterated first it ends as `brick kiln`, with key `'1'` iterated first it
ends as `not brick kiln`. -/
theorem image_to_label_map_last_wins_witness :
    image_to_label_map [("0", ["imgA", "dup"]), ("1", ["dup", "imgB"])] "dup"
        = some "brick kiln"
    ∧ image_to_label_map [("1", ["dup", "imgB"]), ("0", ["imgA", "dup"])] "dup"
        = some "not brick kiln" :=
  image_to_label_map_last_wins ["imgA", "dup"] ["dup", "imgB"] "dup" (by decide) (by decide)

/-- Claim C5: the manifest-to-records join produces exactly one record per
image id of the split's list (the i-th record is the i-th id's record and
the count equals the list length); when every id has a label no record has
an absent label; and an id missing from the inverted label map still yields
a record, carrying an absent label. -/
theorem buildSplitData_join (p : String) (m : String → Option String) (s : String)
    (ids : List String) :
    (buildSplitData p m s ids).length = ids.length
    ∧ (∀ i, i < ids.length →
        ((buildSplitData p m s ids).getD i default).image_id = ids.getD i ""
        ∧ ((buildSplitData p m s ids).getD i default).label = m (ids.getD i ""))
    ∧ ((∀ id ∈ ids, (m id).isSome) → ∀ r ∈ buildSplitData p m s ids, r.label.isSome)
    ∧ (∀ id ∈ ids, m id = none →
        ∃ r ∈ buildSplitData p m s ids, r.image_id = id ∧ r.label = none) := by
  refine ⟨by simp [buildSplitData], ?_, ?_, ?_⟩
  · intro i hi
    have hlen : i < (buildSplitData p m s ids).length := by
      simpa [buildSplitData] using hi
    rw [List.getD_eq_getElem _ _ hlen, List.getD_eq_getElem _ _ hi]
    simp [buildSplitData]
  · intro hall r hr
    simp only [buildSplitData, List.mem_map] at hr
    obtain ⟨id, hid, rfl⟩ := hr
    exact hall id hid
  · intro id hid hnone
    exact ⟨_, List.mem_map_of_mem _ hid, rfl, hnone⟩

/-- Witness for C5: a two-id manifest with `imgA` labelled and `imgB`
missing from the label map — both records exist, `imgB`'s with an absent
label. -/
theorem buildSplitData_join_witness :
    (buildSplitData "../m-brick-kiln/" wLabelOf "train" ["imgA", "imgB"]).length = 2
    ∧ (∃ r ∈ buildSplitData "../m-brick-kiln/" wLabelOf "train" ["imgA", "imgB"],
        r.image_id = "imgB" ∧ r.label = none) := by
  have h := buildSplitData_join "../m-brick-kiln/" wLabelOf "train" ["imgA", "imgB"]
  exact ⟨h.1, h.2.2.2 "imgB" (by decide) (by decide)⟩

/-- Claim C7: the class weights are `total / count[c]` raw, then normalized
to sum to 1 while preserving the inverse-frequency relation
`w[0] * count[0] = w[1] * count[1]`; for counts `{0: 800, 1: 200}` the raw
weights are `(1.25, 5.0)`, the normalized ones are `(0.2, 0.8)` (summing to
1 with ratio 1:4). -/
theorem class_weights_spec (c0 c1 : ℕ) (h0 : 0 < c0) (h1 : 0 < c1) :
    (class_weights_normalized c0 c1).1 + (class_weights_normalized c0 c1).2 = 1
    ∧ (class_weights_normalized c0 c1).1 * (c0 : ℚ)
        = (class_weights_normalized c0 c1).2 * (c1 : ℚ)
    ∧ class_weights_raw 800 200 = (5/4, 5)
    ∧ class_weights_normalized 800 200 = (1/5, 4/5)
    ∧ (class_weights_normalized 800 200).2 = 4 * (class_weights_normalized 800 200).1 := by
  have hq0 : (0 : ℚ) < (c0 : ℚ) := by exact_mod_cast h0
  have hq1 : (0 : ℚ) < (c1 : ℚ) := by exact_mod_cast h1
  have hsum : (0 : ℚ) < (c0 : ℚ) + (c1 : ℚ) := by positivity
  have hraw0 : (0 : ℚ) < (class_weights_raw c0 c1).1 := div_pos hsum hq0
  have hraw1 : (0 : ℚ) < (class_weights_raw c0 c1).2 := div_pos hsum hq1
  have hnf : (class_weights_raw c0 c1).1 + (class_weights_raw c0 c1).2 ≠ 0 :=
    ne_of_gt (add_pos hraw0 hraw1)
  refine ⟨?_, ?_, ?_, ?_, ?_⟩
  · unfold class_weights_normalized
    rw [div_add_div_same, div_self hnf]
  · have hnf2 : ((c0 : ℚ) + (c1 : ℚ)) / (c0 : ℚ) + ((c0 : ℚ) + (c1 : ℚ)) / (c1 : ℚ) ≠ 0 := hnf
    simp only [class_weights_normalized, class_weights_raw]
    field_simp
    ring
  · norm_num [class_weights_raw, Prod.ext_iff]
  · norm_num [class_weights_normalized, class_weights_raw, Prod.ext_iff]
  · norm_num [class_weights_normalized, class_weights_raw]

/-- Witness for C7 at the concrete counts 800 and 200. -/
theorem class_weights_spec_witness :
    (class_weights_normalized 800 200).1 + (class_weights_normalized 800 200).2 = 1
    ∧ class_weights_raw 800 200 = (5/4, 5)
    ∧ class_weights_normalized 800 200 = (1/5, 4/5) := by
  have h := class_weights_spec 800 200 (by norm_num) (by norm_num)
  exact ⟨h.1, h.2.2.1, h.2.2.2.1⟩

/-- A readable file suitable for the constant-band scenario: it opens, has
exactly `n` bands, and band `i` is a nonempty band holding the constant
`cs[i]` in every pixel. -/
abbrev constFile (n : ℕ) (cs : List ℚ) (f : Option (List Band2D)) : Prop :=
  f ≠ none ∧ (f.getD []).length = n
    ∧ ∀ i < n, constBand ((f.getD []).getD i []) (cs.getD i 0)
        ∧ 0 < bandSize ((f.getD []).getD i [])

/-- The sum of a list all of whose entries are `c` is `c` times its
length. -/
theorem list_sum_const (c : ℚ) : ∀ (row : List ℚ), (∀ x ∈ row, x = c) →
    row.sum = c * (row.length : ℚ) := by
  intro row
  induction row with
  | nil => intro _; simp
  | cons a t ih =>
    intro h
    rw [List.sum_cons, List.length_cons, h a (List.mem_cons_self a t),
      ih (fun x hx => h x (List.mem_cons_of_mem a hx))]
    push_cast
    ring

/-- The pixel sum of a constant band is the constant times the pixel
count. -/
theorem bandSum_const : ∀ (b : Band2D) (c : ℚ), constBand b c →
    bandSum b = c * (bandSize b : ℚ) := by
  intro b c
  induction b with
  | nil => intro _; simp [bandSum, bandSize]
  | cons row t ih =>
    intro h
    have hrow : ∀ x ∈ row, x = c := h row (List.mem_cons_self row t)
    have ht : constBand t c := fun r hr x hx => h r (List.mem_cons_of_mem row hr) x hx
    simp only [bandSum, bandSize, List.map_cons, List.sum_cons] at ih ⊢
    rw [list_sum_const c row hrow, ih ht]
    push_cast
    ring

/-- The squared-pixel sum of a constant band is the square of the constant
times the pixel count. -/
theorem bandSqSum_const : ∀ (b : Band2D) (c : ℚ), constBand b c →
    bandSqSum b = c * c * (bandSize b : ℚ) := by
  intro b c
  induction b with
  | nil => intro _; simp [bandSqSum, bandSize]
  | cons row t ih =>
    intro h
    have hrow : ∀ x ∈ row, x = c := h row (List.mem_cons_self row t)
    have ht : constBand t c := fun r hr x hx => h r (List.mem_cons_of_mem row hr) x hx
    simp only [bandSqSum, bandSize, List.map_cons, List.sum_cons] at ih ⊢
    have hsq : ∀ y ∈ row.map (fun x => x * x), y = c * c := by
      intro y hy
      obtain ⟨x, hx, rfl⟩ := List.mem_map.mp hy
      rw [hrow x hx]
    rw [list_sum_const (c * c) _ hsq, List.length_map, ih ht]
    push_cast
    ring

/-- Invariant of the accumulator fold of `compute_band_stats` over
constant-band files, at one band index `i`: the running sum stays `c` times
the running pixel count, the running sum of squares stays `c²` times the
count, and the count never decreases. -/
theorem foldl_stepFile_const (n i : ℕ) (cs : List ℚ) (hi : i < n) :
    ∀ (files : List (Option (List Band2D))),
      (∀ f ∈ files, constFile n cs f) →
      ∀ a : ℕ → BandAcc,
        (a i).sum = cs.getD i 0 * ((a i).count : ℚ) →
        (a i).sqSum = cs.getD i 0 * cs.getD i 0 * ((a i).count : ℚ) →
        ((files.foldl (stepFile n) a) i).sum
            = cs.getD i 0 * (((files.foldl (stepFile n) a) i).count : ℚ)
        ∧ ((files.foldl (stepFile n) a) i).sqSum
            = cs.getD i 0 * cs.getD i 0 * (((files.foldl (stepFile n) a) i).count : ℚ)
        ∧ (a i).count ≤ ((files.foldl (stepFile n) a) i).count := by
  intro files
  induction files with
  | nil =>
    intro _ a h1 h2
    exact ⟨h1, h2, le_refl _⟩
  | cons f t ih =>
    intro hf a h1 h2
    obtain ⟨hne1, hlen1, hbands1⟩ := hf f (List.mem_cons_self f t)
    cases f with
    | none => exact absurd rfl hne1
    | some bs =>
      simp only [Option.getD_some] at hlen1 hbands1
      have hconst := (hbands1 i hi).1
      have hcond : i < min bs.length n := by
        rw [hlen1, Nat.min_self]
        exact hi
      have hAsum : ((stepFile n a (some bs)) i).sum
          = (a i).sum + bandSum (bs.getD i []) := by
        simp only [stepFile]
        rw [if_pos hcond]
      have hAsq : ((stepFile n a (some bs)) i).sqSum
          = (a i).sqSum + bandSqSum (bs.getD i []) := by
        simp only [stepFile]
        rw [if_pos hcond]
      have hAcnt : ((stepFile n a (some bs)) i).count
          = (a i).count + bandSize (bs.getD i []) := by
        simp only [stepFile]
        rw [if_pos hcond]
      rw [List.foldl_cons]
      have h1' : ((stepFile n a (some bs)) i).sum
          = cs.getD i 0 * (((stepFile n a (some bs)) i).count : ℚ) := by
        rw [hAsum, hAcnt, h1, bandSum_const _ _ hconst]
        push_cast
        ring
      have h2' : ((stepFile n a (some bs)) i).sqSum
          = cs.getD i 0 * cs.getD i 0 * (((stepFile n a (some bs)) i).count : ℚ) := by
        rw [hAsq, hAcnt, h2, bandSqSum_const _ _ hconst]
        push_cast
        ring
      have hrest := ih (fun g hg => hf g (List.mem_cons_of_mem _ hg))
        (stepFile n a (some bs)) h1' h2'
      refine ⟨hrest.1, hrest.2.1, le_trans ?_ hrest.2.2⟩
      rw [hAcnt]
      exact Nat.le_add_right _ _

/-- Core of the amended C1, on the file-content level: over a nonempty set
of files whose `n` bands each hold one constant per band, row `i` of the
result has mean equal to `cs[i]` and std equal to zero (the intermediate
variance is exactly zero in exact arithmetic, so no NaN arises). -/
theorem computeBandStatsFiles_constant (bands : List String) (cs : List ℚ)
    (files : List (Option (List Band2D))) (hne : files ≠ [])
    (hf : ∀ f ∈ files, constFile bands.length cs f) :
    ∀ i, i < bands.length →
      ((computeBandStatsFiles bands files).getD i ⟨"", 0, none, 0⟩).mean = cs.getD i 0
      ∧ ((computeBandStatsFiles bands files).getD i ⟨"", 0, none, 0⟩).stdSq = some 0 := by
  intro i hi
  obtain ⟨f, t, rfl⟩ : ∃ f t, files = f :: t := by
    cases files with
    | nil => exact absurd rfl hne
    | cons f t => exact ⟨f, t, rfl⟩
  obtain ⟨hne1, hlen1, hbands1⟩ := hf f (List.mem_cons_self f t)
  cases f with
  | none => exact absurd rfl hne1
  | some bs =>
    simp only [Option.getD_some] at hlen1 hbands1
    have hconst := (hbands1 i hi).1
    have hpos := (hbands1 i hi).2
    have hrow : (computeBandStatsFiles bands (some bs :: t)).getD i ⟨"", 0, none, 0⟩
        = statsRow bands
            ((some bs :: t).foldl (stepFile bands.length) (fun _ => ⟨0, 0, 0⟩)) i := by
      have hlenr : (computeBandStatsFiles bands (some bs :: t)).length = bands.length := by
        simp [computeBandStatsFiles]
      rw [List.getD_eq_getElem _ _ (by rw [hlenr]; exact hi)]
      simp [computeBandStatsFiles]
    rw [hrow, List.foldl_cons]
    have hcond : i < min bs.length bands.length := by
      rw [hlen1, Nat.min_self]
      exact hi
    have hAsum : ((stepFile bands.length (fun _ => ⟨0, 0, 0⟩) (some bs)) i).sum
        = (0 : ℚ) + bandSum (bs.getD i []) := by
      simp only [stepFile]
      rw [if_pos hcond]
    have hAsq : ((stepFile bands.length (fun _ => ⟨0, 0, 0⟩) (some bs)) i).sqSum
        = (0 : ℚ) + bandSqSum (bs.getD i []) := by
      simp only [stepFile]
      rw [if_pos hcond]
    have hAcnt : ((stepFile bands.length (fun _ => ⟨0, 0, 0⟩) (some bs)) i).count
        = 0 + bandSize (bs.getD i []) := by
      simp only [stepFile]
      rw [if_pos hcond]
    have h1' : ((stepFile bands.length (fun _ => ⟨0, 0, 0⟩) (some bs)) i).sum
        = cs.getD i 0 * (((stepFile bands.length (fun _ => ⟨0, 0, 0⟩) (some bs)) i).count : ℚ) := by
      rw [hAsum, hAcnt, bandSum_const _ _ hconst]
      push_cast
      ring
    have h2' : ((stepFile bands.length (fun _ => ⟨0, 0, 0⟩) (some bs)) i).sqSum
        = cs.getD i 0 * cs.getD i 0
          * (((stepFile bands.length (fun _ => ⟨0, 0, 0⟩) (some bs)) i).count : ℚ) := by
      rw [hAsq, hAcnt, bandSqSum_const _ _ hconst]
      push_cast
      ring
    have hrest := foldl_stepFile_const bands.length i cs hi t
      (fun g hg => hf g (List.mem_cons_of_mem _ hg))
      (stepFile bands.length (fun _ => ⟨0, 0, 0⟩) (some bs)) h1' h2'
    obtain ⟨r1, r2, rmono⟩ := hrest
    have hcnt : 0 < ((t.foldl (stepFile bands.length)
        (stepFile bands.length (fun _ => ⟨0, 0, 0⟩) (some bs))) i).count := by
      refine lt_of_lt_of_le ?_ rmono
      rw [hAcnt]
      simpa using hpos
    have hcQ : (((t.foldl (stepFile bands.length)
        (stepFile bands.length (fun _ => ⟨0, 0, 0⟩) (some bs))) i).count : ℚ) ≠ 0 :=
      Nat.cast_ne_zero.mpr hcnt.ne'
    constructor
    · simp only [statsRow]
      rw [r1, mul_div_assoc, div_self hcQ, mul_one]
    · simp only [statsRow]
      have hv : ((t.foldl (stepFile bands.length)
            (stepFile bands.length (fun _ => ⟨0, 0, 0⟩) (some bs))) i).sqSum
              / (((t.foldl (stepFile bands.length)
                (stepFile bands.length (fun _ => ⟨0, 0, 0⟩) (some bs))) i).count : ℚ)
            - (((t.foldl (stepFile bands.length)
                (stepFile bands.length (fun _ => ⟨0, 0, 0⟩) (some bs))) i).sum
              / (((t.foldl (stepFile bands.length)
                (stepFile bands.length (fun _ => ⟨0, 0, 0⟩) (some bs))) i).count : ℚ)) ^ 2
          = 0 := by
        rw [r1, r2]
        field_simp
        ring
      rw [hv]
      norm_num [npSqrtSq]

/-- Claim C1 (amended): over a nonempty input file set whose 13 bands each
hold a single constant value per band, `compute_band_stats` returns, for
each band, a mean equal to that constant and a std equal to zero — in exact
arithmetic the intermediate variance `E[x²] - E[x]²` is exactly zero, so no
negative square root arises.  (The code applies no clamping before the
square root: see the counterexample at the square-root step.) -/
theorem compute_band_stats_constant_bands (fs : FileSys) (df : List ExampleRecord)
    (bands : List String) (cs : List ℚ) (hne : df ≠ [])
    (hf : ∀ r ∈ df, constFile bands.length cs (fs r.filename)) :
    ∀ i, i < bands.length →
      ((compute_band_stats fs df bands).getD i ⟨"", 0, none, 0⟩).mean = cs.getD i 0
      ∧ ((compute_band_stats fs df bands).getD i ⟨"", 0, none, 0⟩).stdSq = some 0 := by
  have hfe : df.map (fun r => fs r.filename) ≠ [] := by
    simpa using hne
  have hff : ∀ f ∈ df.map (fun r => fs r.filename), constFile bands.length cs f := by
    intro f hfm
    obtain ⟨r, hr, rfl⟩ := List.mem_map.mp hfm
    exact hf r hr
  exact computeBandStatsFiles_constant bands cs _ hfe hff

/-- Witness for the amended C1: under `fsDemo`, the single readable file has
13 bands all constantly 2; band 0 gets mean 2 and std 0. -/
theorem compute_band_stats_constant_bands_witness :
    ((compute_band_stats fsDemo [recGood] bandNames).getD 0 ⟨"", 0, none, 0⟩).mean = 2
    ∧ ((compute_band_stats fsDemo [recGood] bandNames).getD 0 ⟨"", 0, none, 0⟩).stdSq
        = some 0 := by
  have h := compute_band_stats_constant_bands fsDemo [recGood] bandNames
    [2, 2, 2, 2, 2, 2, 2, 2, 2, 2, 2, 2, 2] (by decide) (by decide) 0 (by decide)
  exact ⟨h.1.trans (by decide), h.2⟩

/-- Counterexample to C1 as stated: the square-root step of line 72 does not
clamp a negative intermediate variance to zero — on the input `-1` it
produces NaN (`none`), while the clamping step the claim describes
(`npSqrtSqClamped`) produces a zero std. -/
theorem npSqrtSq_no_clamp_counterexample :
    npSqrtSq (-1) = none
    ∧ npSqrtSqClamped (-1) = some 0
    ∧ npSqrtSq (-1) ≠ npSqrtSqClamped (-1) := by
  refine ⟨?_, ?_, ?_⟩ <;> decide
